import Mathlib

/-!
Shallow embedding of the ShiftTracker program
(`src/shift-tracker/src/main.cpp`) and verification of its specification.

Modelling conventions:
* C++ `double` is modelled as the exact rational type `ℚ` (every IEEE-754
  double is a binary fraction, hence a rational with a finite decimal form);
  arithmetic is exact, idealizing floating-point rounding.
* C++ exceptions (`std::runtime_error`, the `stoi`/`stod` exceptions) are
  modelled with `Except String`, carrying the `what()` message.
* `std::stod` / `std::stoi` are modelled on decimal forms (leading
  whitespace, optional sign, longest numeric prefix, optional exponent for
  `stod`); the hexadecimal / infinity / NaN forms of `strtod` are not
  modelled, and integer-width overflow is idealized away.
* `ostream <<` on a `double` is modelled by `fmtQ`: `%g`-style printing
  at the default precision of 6 significant digits (round to nearest,
  ties to even, trailing zeros stripped, scientific form outside the
  fixed range), applied to the exact rational value.
* The filesystem is modelled by `FSFile` (absent / unreadable / readable
  with contents) plus a writability flag in `World`.
* `time(nullptr)` is modelled by an explicit `now : Int` parameter
  (seconds since the Unix epoch), read once per call as in the source.
-/

/-! ## Character-level parsing utilities (model of std::stod / std::stoi) -/

/-- The six characters accepted by `std::isspace` in the default locale. -/
def isCppSpace (c : Char) : Bool :=
  c = ' ' || c = '\t' || c = '\n' || c = '\x0b' || c = '\x0c' || c = '\r'

/-- Consume the longest run of decimal digits, accumulating the value and the
number of digits consumed, returning also the unconsumed remainder. -/
def parseDigits : List Char → Nat → Nat → Nat × Nat × List Char
  | [], acc, cnt => (acc, cnt, [])
  | c :: cs, acc, cnt =>
    if c.isDigit then parseDigits cs (acc * 10 + (c.toNat - 48)) (cnt + 1)
    else (acc, cnt, c :: cs)

/-- Consume an optional leading sign, returning its value and the rest. -/
def signSplit (cs : List Char) : Int × List Char :=
  match cs with
  | [] => (1, [])
  | c :: t => if c = '-' then (-1, t) else if c = '+' then (1, t) else (1, c :: t)

/-- Magnitude part of `std::stod` after the sign: digits, optional point
and digits, optional exponent.  `none` where `stod` throws
`std::invalid_argument` (no digit consumed). -/
def stodMag (cs : List Char) : Option ℚ :=
  let ipr := parseDigits cs 0 0
  let fpr : Nat × Nat × List Char :=
    if ipr.2.2.head? = some '.' then parseDigits ipr.2.2.tail 0 0
    else (0, 0, ipr.2.2)
  if ipr.2.1 + fpr.2.1 = 0 then none
  else
    let mant : ℚ := (ipr.1 : ℚ) + (fpr.1 : ℚ) / (10 : ℚ) ^ fpr.2.1
    let e : Int :=
      if fpr.2.2.head? = some 'e' ∨ fpr.2.2.head? = some 'E' then
        let es := signSplit fpr.2.2.tail
        let epr := parseDigits es.2 0 0
        if epr.2.1 = 0 then 0 else es.1 * (epr.1 : Int)
      else 0
    let scale : ℚ := if 0 ≤ e then (10 : ℚ) ^ e.toNat else 1 / (10 : ℚ) ^ (-e).toNat
    some (mant * scale)

/-- Model of `std::stod` on a character list (after whitespace skipping):
optional sign, then the magnitude. -/
def stodCore (cs : List Char) : Option ℚ :=
  let sg := signSplit cs
  (stodMag sg.2).map (fun v => (sg.1 : ℚ) * v)

/-- Model of `std::stod` (skips leading whitespace, then `stodCore`). -/
def stod? (s : String) : Option ℚ :=
  stodCore (s.data.dropWhile isCppSpace)

/-- Model of `std::stoi`: whitespace, optional sign, longest run of decimal
digits; `none` where `stoi` throws `std::invalid_argument`. -/
def stoi? (s : String) : Option Int :=
  let sg := signSplit (s.data.dropWhile isCppSpace)
  let r := parseDigits sg.2 0 0
  if r.2.1 = 0 then none else some (sg.1 * (r.1 : Int))

/-! ## Decimal printing of `double` (model of default `ostream <<`) -/

/-- Number of times `p` divides `n` (fuelled structural recursion so that the
kernel can evaluate it). -/
def padicCountAux (p : Nat) : Nat → Nat → Nat
  | 0, _ => 0
  | fuel + 1, n => if 2 ≤ p ∧ 0 < n ∧ n % p = 0 then padicCountAux p fuel (n / p) + 1 else 0

/-- Number of times `p` divides `n`. -/
def padicCount (p n : Nat) : Nat := padicCountAux p n n

/-- The decimal digit character for `d < 10`. -/
def digitCh (d : Nat) : Char := Char.ofNat (48 + d)

/-- Little-endian decimal digits, by fuelled structural recursion (the
fuel ticks once per digit, so the kernel evaluates this fast even on
large literals). -/
def natDigitsAux : Nat → Nat → List Nat
  | 0, _ => []
  | fuel + 1, n => if n = 0 then [] else n % 10 :: natDigitsAux fuel (n / 10)

/-- Little-endian decimal digits of `n` (empty for 0). -/
def natDigitsLE (n : Nat) : List Nat := natDigitsAux n n

/-- Number of decimal digits of `n` (0 for 0). -/
def digitLen (n : Nat) : Nat := (natDigitsLE n).length

/-- Big-endian digit characters of `n`. -/
def natChars (n : Nat) : List Char := (natDigitsLE n).reverse.map digitCh

/-- Whether `a / b < 10 ^ e` (`e : ℤ`), by cross-multiplication. -/
def ratLtPow10 (a b : Nat) (e : Int) : Bool :=
  if 0 ≤ e then a < b * 10 ^ e.toNat else a * 10 ^ (-e).toNat < b

/-- Round the positive rational `a / b` to 6 significant decimal digits
(round to nearest, ties to even): returns the significand with trailing
zeros stripped, together with the decimal exponent `X` (the unique
integer with `10^X ≤ a/b < 10^(X+1)`, adjusted when rounding carries). -/
def round6 (a b : Nat) : Nat × Int :=
  let e0 : Int := (digitLen a : Int) - (digitLen b : Int)
  let X : Int := if ratLtPow10 a b e0 then e0 - 1 else e0
  -- a/b * 10^(5-X) lies in [10^5, 10^6); round it to the nearest
  -- integer, ties to even
  let ND : Nat × Nat :=
    if X ≤ 5 then (a * 10 ^ (5 - X).toNat, b) else (a, b * 10 ^ (X - 5).toNat)
  let m0 := ND.1 / ND.2
  let r := ND.1 % ND.2
  let m1 := m0 + (if ND.2 < 2 * r then 1 else if 2 * r < ND.2 then 0 else m0 % 2)
  -- rounding up to 10^6 carries into the exponent
  let mX : Nat × Int := if m1 = 10 ^ 6 then (10 ^ 5, X + 1) else (m1, X)
  (mX.1 / 10 ^ padicCount 10 mX.1, mX.2)

/-- Lay out a rounded significand (trailing zeros already stripped) at
decimal exponent `X` the way `%g` does: scientific notation when `X` is
below -4 or at least the precision 6 (C++ prints the exponent with a
sign and at least two digits), fixed notation otherwise. -/
def fmtLayout (msig : Nat) (X : Int) : String :=
  let sig := natChars msig
  let k := sig.length
  if X < -4 ∨ 6 ≤ X then
    String.mk (sig.take 1) ++
      (if 1 < k then "." ++ String.mk (sig.drop 1) else "") ++
      "e" ++ (if X < 0 then "-" else "+") ++
      (if X.natAbs < 10 then "0" else "") ++ String.mk (natChars X.natAbs)
  else if 0 ≤ X then
    let ip := X.toNat + 1
    if k ≤ ip then String.mk (sig ++ List.replicate (ip - k) '0')
    else String.mk (sig.take ip) ++ "." ++ String.mk (sig.drop ip)
  else
    "0." ++ String.mk (List.replicate (X.natAbs - 1) '0' ++ sig)

/-- `%g`-style printing of the nonnegative rational `a / b` (`b ≠ 0`) at
the default stream precision 6, as default-formatted `ostream <<` prints
a `double`: round to 6 significant digits, then lay out. -/
def fmtG (a b : Nat) : String :=
  if a = 0 then "0" else fmtLayout (round6 a b).1 (round6 a b).2

/-- Model of `ostream <<` on a `double` with default flags: sign, then
the 6-significant-digit `%g` form of the magnitude.  The stored values
are exact rationals (the sub-ulp binary-representation error of the
`double` type is idealized away), but the output rounding to 6
significant digits — the dominant formatting effect — is modelled. -/
def fmtQ (q : ℚ) : String :=
  if q < 0 then "-" ++ fmtG q.num.natAbs q.den else fmtG q.num.natAbs q.den

/-! ## The Shift record and its CSV encoding -/

/-- `struct Shift` from the source. -/
structure Shift where
  date : String
  hours : ℚ := 0
  hourlyRate : ℚ := 0
  note : String := ""
deriving DecidableEq

/-- The character loop of `Shift::fromCSV`: split at every `','`,
accumulating the current field. -/
def splitCommaAux (cur : List Char) : List Char → List (List Char)
  | [] => [cur]
  | c :: cs => if c = ',' then cur :: splitCommaAux [] cs else splitCommaAux (cur ++ [c]) cs

/-- Split a line at every comma (as the loop in `Shift::fromCSV` does). -/
def splitComma (cs : List Char) : List (List Char) := splitCommaAux [] cs

/-- `Shift::fromCSV`: split on commas, require at least 3 fields, parse
fields 2 and 3 with `stod`, take the optional 4th field as the note. -/
def Shift.fromCSV (line : String) (lineno : Nat) : Except String Shift :=
  let parts := splitComma line.data
  if parts.length < 3 then .error ("Bad CSV at line " ++ toString lineno)
  else
    match stod? (String.mk (parts.getD 1 [])), stod? (String.mk (parts.getD 2 [])) with
    | some h, some r =>
      .ok { date := String.mk (parts.getD 0 []), hours := h, hourlyRate := r,
            note := if 4 ≤ parts.length then String.mk (parts.getD 3 []) else "" }
    | _, _ => .error ("Bad number at line " ++ toString lineno)

/-- `Shift::toCSV`: `date,hours,rate,note` joined by commas. -/
def Shift.toCSV (s : Shift) : String :=
  s.date ++ "," ++ fmtQ s.hours ++ "," ++ fmtQ s.hourlyRate ++ "," ++ s.note

/-- `Shift::pay`. -/
def Shift.pay (s : Shift) : ℚ := s.hours * s.hourlyRate

/-! ## Storage (IStorage / FileStorage) and the filesystem model -/

/-- State of the backing file: missing, existing but unreadable, or
readable with the given contents.  `ifstream` fails to open in the first
two cases and the source cannot tell them apart. -/
inductive FSFile
  | absent
  | unreadable
  | readable (content : String)
deriving DecidableEq

/-- What `ifstream in(path)` yields: the contents when the open succeeds. -/
def fileOpen : FSFile → Option String
  | .readable c => some c
  | _ => none

/-- The `getline` loop: split the contents into lines, one per `'\n'`;
a final fragment without a trailing newline is also a line. -/
def getLinesAux (cur : List Char) : List Char → List String
  | [] => if cur = [] then [] else [String.mk cur]
  | c :: cs =>
    if c = '\n' then String.mk cur :: getLinesAux [] cs
    else getLinesAux (cur ++ [c]) cs

/-- Lines read by successive `getline` calls on the whole contents. -/
def getLines (content : String) : List String := getLinesAux [] content.data

/-- The body of the `while (getline...)` loop in `FileStorage::load`:
`++ln`, skip lines with `line.empty()`, decode the rest, first decode
error aborting the load. -/
def decodeLines (ls : List String) (ln : Nat) : Except String (List Shift)
  := match ls with
  | [] => .ok []
  | l :: rest =>
    if l = "" then decodeLines rest (ln + 1)
    else do
      let s ← Shift.fromCSV l (ln + 1)
      let v ← decodeLines rest (ln + 1)
      pure (s :: v)

/-- `FileStorage::load`: empty result when the open fails
(`if (!in) return v;`), otherwise decode the lines. -/
def FileStorage.load (f : FSFile) : Except String (List Shift) :=
  match fileOpen f with
  | none => .ok []
  | some content => decodeLines (getLines content) 0

/-- The text written by `FileStorage::save`: each record's encoding
followed by a newline, in order. -/
def saveContent (v : List Shift) : String :=
  v.foldl (fun acc s => acc ++ s.toCSV ++ "\n") ""

/-- World state seen by the storage implementation: the backing file and
whether `ofstream out(path)` can open it for (re)writing. -/
structure World where
  file : FSFile
  writable : Bool
deriving DecidableEq

/-- `FileStorage::save`: truncate-and-rewrite on success, exception when
the store cannot be opened for writing. -/
def FileStorage.save (path : String) (w : World) (v : List Shift) : Except String World :=
  if w.writable then .ok { w with file := .readable (saveContent v) }
  else .error ("Cannot open file for write: " ++ path)

/-! ## Date utilities (`parseISO`, `utc_timegm`) -/

/-- `struct tm` (the fields the program uses). -/
structure Tm where
  tm_year : Int := 0
  tm_mon : Int := 0
  tm_mday : Int := 0
  tm_hour : Int := 0
  tm_min : Int := 0
  tm_sec : Int := 0
deriving DecidableEq

/-- `std::string::substr(pos, len)` (in-range uses only). -/
def substrN (s : String) (pos len : Nat) : String :=
  String.mk ((s.data.drop pos).take len)

/-- `parseISO`: zero-initialized `tm`; when the string has at least 10
characters, fill year/month/day via `stoi` on the three fixed slices
(`stoi` throws on a slice with no leading integer). -/
def parseISO (ymd : String) : Except String Tm :=
  if 10 ≤ ymd.length then
    match stoi? (substrN ymd 0 4), stoi? (substrN ymd 5 2), stoi? (substrN ymd 8 2) with
    | some y, some mo, some d =>
      .ok { tm_year := y - 1900, tm_mon := mo - 1, tm_mday := d }
    | _, _, _ => .error "stoi"
  else .ok {}

/-- Days since 1970-01-01 of the civil date `y-m-d` (proleptic Gregorian,
`m` in 1..12); the standard era-based algorithm with C++ truncating
integer division, as computed by `timegm` for in-range fields. -/
def daysFromCivil (y m d : Int) : Int :=
  let y1 := if m ≤ 2 then y - 1 else y
  let era : Int := Int.tdiv (if 0 ≤ y1 then y1 else y1 - 399) 400
  let yoe := y1 - era * 400
  let doy := Int.tdiv (153 * (m + (if 2 < m then -3 else 9)) + 2) 5 + d - 1
  let doe := yoe * 365 + Int.tdiv yoe 4 - Int.tdiv yoe 100 + doy
  era * 146097 + doe - 719468

/-- `utc_timegm` / `timegm`: seconds since the epoch of a UTC `tm`
(in-range fields; `timegm`'s normalization of out-of-range fields is not
modelled, and the program only ever passes `parseISO` results). -/
def utc_timegm (t : Tm) : Int :=
  86400 * daysFromCivil (t.tm_year + 1900) (t.tm_mon + 1) t.tm_mday
    + 3600 * t.tm_hour + 60 * t.tm_min + t.tm_sec

/-! ## Tax estimator -/

/-- `estimateTaxYearly`: two-band progressive estimate. -/
def estimateTaxYearly (gross : ℚ) : ℚ :=
  let personalAllowance : ℚ := 12570
  let basicBandLimit : ℚ := 50270
  if gross ≤ personalAllowance then 0
  else
    let taxable := gross - personalAllowance
    let basicBand := max 0 (min taxable (basicBandLimit - personalAllowance))
    let tax := basicBand * (0.2 : ℚ)
    let higherBand := max 0 (taxable - basicBand)
    tax + higherBand * (0.4 : ℚ)

/-! ## Tracker -/

/-- The Tracker's in-memory state: the shift collection it owns. -/
structure Tracker where
  shifts : List Shift
deriving DecidableEq

/-- Comparator of `listAllSorted` as a boolean total preorder
(`a.date < b.date` is the strict form; sorting uses `≤` as the
non-strict closure demanded of a conforming `std::sort` output). -/
def dateLe (a b : Shift) : Bool := a.date ≤ b.date

/-- `Tracker::listAllSorted`, with the `std::sort` call instantiated by a
conforming comparison sort (`std::sort` promises a sorted permutation;
the order of tying elements is unspecified, see `stdSortPost`). -/
def Tracker.listAllSorted (tr : Tracker) : List Shift :=
  tr.shifts.mergeSort dateLe

/-- Postcondition of `sort(v.begin(), v.end(), cmp)` with
`cmp a b = a.date < b.date`: the output is a permutation of the input in
which no later element compares strictly below an earlier one.  This is
everything the call guarantees; stability is not part of the contract. -/
def stdSortPost (input out : List Shift) : Prop :=
  out.Perm input ∧ out.Pairwise (fun a b => ¬ b.date < a.date)

instance (input out : List Shift) : Decidable (stdSortPost input out) := by
  unfold stdSortPost; infer_instance

/-- The `copy_if` traversal of `Tracker::filterRecentDays`: keep shifts
whose parsed date is at or after the cutoff; a `parseISO` failure
(`stoi` exception) aborts the whole call. -/
def filterRecentAux (cutoff : Int) : List Shift → Except String (List Shift)
  | [] => .ok []
  | s :: rest => do
    let t ← parseISO s.date
    let out ← filterRecentAux cutoff rest
    pure (if cutoff ≤ utc_timegm t then s :: out else out)

/-- `Tracker::filterRecentDays`; `now` models the single `time(nullptr)`
read. -/
def Tracker.filterRecentDays (tr : Tracker) (days : Int) (now : Int) :
    Except String (List Shift) :=
  let cutoff := now - days * 24 * 3600
  filterRecentAux cutoff tr.shifts

/-- `Tracker::totalPay`: `accumulate` over the given subsequence. -/
def Tracker.totalPay (v : List Shift) : ℚ :=
  v.foldl (fun acc s => acc + s.pay) 0

/-- Ordered-map insertion `m[k] += x` with default 0 (model of
`std::map<string,double>` keyed by `operator<`). -/
def mapAdd (m : List (String × ℚ)) (k : String) (x : ℚ) : List (String × ℚ) :=
  match m with
  | [] => [(k, x)]
  | (k1, v1) :: rest =>
    if k = k1 then (k1, v1 + x) :: rest
    else if k < k1 then (k, x) :: (k1, v1) :: rest
    else (k1, v1) :: mapAdd rest k x

/-- `Tracker::monthlyTotals`: group pay by the 7-character month prefix;
the association list is kept in ascending key order as `std::map` is. -/
def Tracker.monthlyTotals (tr : Tracker) : List (String × ℚ) :=
  tr.shifts.foldl (fun m s => mapAdd m (substrN s.date 0 7) s.pay) []

/-- `Tracker::countHighPay`: `count_if` with `pay() >= threshold`. -/
def Tracker.countHighPay (tr : Tracker) (threshold : ℚ) : Nat :=
  tr.shifts.countP (fun s => threshold ≤ s.pay)

/-- `Tracker::add`: `push_back` then `storage->save(shifts)`; a save
failure propagates, and the in-memory append stays in place. -/
def Tracker.add (path : String) (s : Shift) (tr : Tracker) (w : World) :
    Tracker × World × Except String Unit :=
  let shifts1 := tr.shifts ++ [s]
  match FileStorage.save path w shifts1 with
  | .ok w1 => (⟨shifts1⟩, w1, .ok ())
  | .error e => (⟨shifts1⟩, w, .error e)

/-! ## The query operations as steps over the full program state -/

/-- Operations a Tracker method can perform on its storage port. -/
inductive StorageOp
  | loadOp
  | saveOp
deriving DecidableEq

/-- One read-only Tracker operation together with its arguments. -/
inductive Query
  | list
  | recent (days now : Int)
  | total (v : List Shift)
  | monthly
  | countHigh (threshold : ℚ)

/-- Result value of a query. -/
inductive QueryOut
  | shifts (v : List Shift)
  | shiftsE (v : Except String (List Shift))
  | amount (q : ℚ)
  | table (m : List (String × ℚ))
  | count (n : Nat)

/-- Run one query against the program state, recording the storage-port
operations it performs; each branch is the corresponding `const` method
body, none of which assigns to `shifts` or touches the storage port. -/
def runQuery (q : Query) (tr : Tracker) (w : World) :
    QueryOut × Tracker × World × List StorageOp :=
  match q with
  | .list => (.shifts tr.listAllSorted, tr, w, [])
  | .recent days now => (.shiftsE (tr.filterRecentDays days now), tr, w, [])
  | .total v => (.amount (Tracker.totalPay v), tr, w, [])
  | .monthly => (.table tr.monthlyTotals, tr, w, [])
  | .countHigh t => (.count (tr.countHighPay t), tr, w, [])

/-- Run a sequence of queries, threading the state. -/
def runQueries (qs : List Query) (tr : Tracker) (w : World) : Tracker × World :=
  match qs with
  | [] => (tr, w)
  | q :: rest =>
    let r := runQuery q tr w
    runQueries rest r.2.1 r.2.2.1

/-! ## Derived definitions used in the statements -/

/-- The epoch timestamp of a shift's date: `utc_timegm(parseISO(date))`,
`none` when `parseISO` fails. -/
def dateEpoch? (d : String) : Option Int :=
  (parseISO d).toOption.map utc_timegm

/-- The predicate `filterRecentDays` effectively filters with (on inputs
whose dates all parse): keep a shift iff its date's UTC midnight is at or
after the cutoff. -/
def keepAt (cutoff : Int) (s : Shift) : Bool :=
  match dateEpoch? s.date with
  | some t => cutoff ≤ t
  | none => false

/-- Decoding a single line, with the line number irrelevant on success. -/
def decodeLine? (l : String) : Option Shift :=
  (Shift.fromCSV l 1).toOption

/-- Shift dated 2025-03-01 from the spec's sort example. -/
def sA : Shift := { date := "2025-03-01", hours := 1, hourlyRate := 1, note := "a" }

/-- First shift dated 2025-01-10 from the spec's sort example. -/
def sB : Shift := { date := "2025-01-10", hours := 1, hourlyRate := 1, note := "b" }

/-- Second shift dated 2025-01-10 from the spec's sort example. -/
def sC : Shift := { date := "2025-01-10", hours := 1, hourlyRate := 1, note := "c" }

/-! ## C3: load on a missing or unreadable store -/

/-- C3 counterexample: when the backing store exists but cannot be read,
`FileStorage::load` does NOT fail with an IOError — `ifstream` merely
fails to open and `if (!in) return v;` yields the empty collection, the
same as for a missing store.  This refutes the claim's second half. -/
theorem C3_counterexample :
    FileStorage.load FSFile.unreadable = Except.ok [] ∧
    ∀ e, FileStorage.load FSFile.unreadable ≠ Except.error e := by
  refine ⟨rfl, ?_⟩
  intro e h
  exact Except.noConfusion h

/-- C3 amended: `load()` returns an empty sequence (not an error) when the
backing store does not exist, and ALSO returns an empty sequence (never an
IOError) when the store exists but cannot be read: the source cannot
distinguish the two open failures. -/
theorem C3_load_openFailure :
    FileStorage.load FSFile.absent = Except.ok [] ∧
    FileStorage.load FSFile.unreadable = Except.ok [] :=
  ⟨rfl, rfl⟩

/-! ## C7: the tax estimator -/

/-- C7: `estimateTaxYearly` is the two-band progressive schedule with
allowance 12570, higher threshold 50270 and rates 20% / 40%: zero at or
below the allowance, `(gross-12570)*0.2` in the basic band,
`7540 + (gross-50270)*0.4` above it; with the three quoted point values. -/
theorem C7_estimateTaxYearly_bands (gross : ℚ) :
    (gross ≤ 12570 → estimateTaxYearly gross = 0) ∧
    (12570 < gross → gross ≤ 50270 → estimateTaxYearly gross = (gross - 12570) * 0.2) ∧
    (50270 < gross →
      estimateTaxYearly gross = (50270 - 12570) * 0.2 + (gross - 50270) * 0.4) ∧
    estimateTaxYearly 12570 = 0 ∧
    estimateTaxYearly 50270 = 7540 ∧
    estimateTaxYearly 60270 = 11540 := by
  refine ⟨?_, ?_, ?_, by norm_num [estimateTaxYearly],
    by norm_num [estimateTaxYearly], by norm_num [estimateTaxYearly]⟩
  · intro h
    simp [estimateTaxYearly, h]
  · intro h1 h2
    have hn : ¬ gross ≤ 12570 := not_le.mpr h1
    simp only [estimateTaxYearly, if_neg hn]
    rw [min_eq_left (by linarith), max_eq_right (by linarith)]
    simp
  · intro h1
    have hn : ¬ gross ≤ 12570 := not_le.mpr (by linarith)
    simp only [estimateTaxYearly, if_neg hn]
    rw [min_eq_right (by linarith), max_eq_right (by norm_num)]
    have h3 : gross - 12570 - ((50270 : ℚ) - 12570) = gross - 50270 := by ring
    rw [h3, max_eq_right (by linarith)]

/-- C7 witness: the band formulas applied at 20000 and 60270. -/
theorem C7_witness :
    estimateTaxYearly 20000 = (20000 - 12570) * 0.2 ∧
    estimateTaxYearly 60270 = (50270 - 12570) * 0.2 + (60270 - 50270) * 0.4 :=
  ⟨(C7_estimateTaxYearly_bands 20000).2.1 (by norm_num) (by norm_num),
   (C7_estimateTaxYearly_bands 60270).2.2.1 (by norm_num)⟩

/-! ## C8: add appends, persists the whole collection, never rolls back -/

/-- `saveContent` writes exactly one encoded line per record, in order. -/
theorem saveContent_eq_join (v : List Shift) :
    saveContent v = String.join (v.map (fun s => s.toCSV ++ "\n")) := by
  have joinCons : ∀ (L : List String) (a : String),
      L.foldl (fun r x => r ++ x) a = a ++ String.join L := by
    intro L
    induction L with
    | nil => intro a; simp [String.join, String.append_empty]
    | cons x rest ih =>
      intro a
      have h1 := ih (a ++ x)
      have h2 := ih ("" ++ x)
      simp only [List.foldl_cons] at *
      rw [h1]
      show a ++ x ++ String.join rest = a ++ String.join (x :: rest)
      have : String.join (x :: rest) = x ++ String.join rest := by
        show List.foldl (fun r s => r ++ s) "" (x :: rest) = _
        simp only [List.foldl_cons]
        rw [h2, String.empty_append]
      rw [this, String.append_assoc]
  have step : ∀ (w : List Shift) (a : String),
      w.foldl (fun acc s => acc ++ s.toCSV ++ "\n") a =
        a ++ String.join (w.map (fun s => s.toCSV ++ "\n")) := by
    intro w
    induction w with
    | nil => intro a; simp [String.join, String.append_empty]
    | cons s rest ih =>
      intro a
      simp only [List.foldl_cons, List.map_cons]
      rw [ih]
      have : String.join ((s.toCSV ++ "\n") :: rest.map (fun x => x.toCSV ++ "\n")) =
          (s.toCSV ++ "\n") ++ String.join (rest.map (fun x => x.toCSV ++ "\n")) := by
        show List.foldl (fun r x => r ++ x) "" _ = _
        simp only [List.foldl_cons]
        rw [joinCons, String.empty_append]
      rw [this, ← String.append_assoc, ← String.append_assoc]
  have h := step v ""
  simpa [saveContent, String.empty_append] using h

/-- C8: `add` appends the shift to the in-memory collection and persists
the whole collection (one encoded line per record, in order, overwriting
the store); on a save failure the error propagates and the in-memory
append is NOT rolled back. -/
theorem C8_add_appends_then_saves (path : String) (s : Shift) (tr : Tracker) (w : World) :
    (Tracker.add path s tr w).1.shifts = tr.shifts ++ [s] ∧
    (w.writable = true →
      (Tracker.add path s tr w).2.2 = Except.ok () ∧
      (Tracker.add path s tr w).2.1 =
        { file := FSFile.readable (String.join ((tr.shifts ++ [s]).map (fun x => x.toCSV ++ "\n"))),
          writable := true }) ∧
    (w.writable = false →
      (Tracker.add path s tr w).2.2 = Except.error ("Cannot open file for write: " ++ path) ∧
      (Tracker.add path s tr w).2.1 = w) := by
  obtain ⟨f, wr⟩ := w
  cases wr <;>
    simp [Tracker.add, FileStorage.save, saveContent_eq_join]

/-- C8 witness: both outcomes at a concrete state. -/
theorem C8_witness :
    (Tracker.add "data/shifts.csv" { date := "d", hours := 1, hourlyRate := 2, note := "" }
        ⟨[]⟩ ⟨FSFile.absent, true⟩).1.shifts =
      [{ date := "d", hours := 1, hourlyRate := 2, note := "" }] ∧
    (Tracker.add "data/shifts.csv" { date := "d", hours := 1, hourlyRate := 2, note := "" }
        ⟨[]⟩ ⟨FSFile.absent, false⟩).2.2 =
      Except.error "Cannot open file for write: data/shifts.csv" ∧
    (Tracker.add "data/shifts.csv" { date := "d", hours := 1, hourlyRate := 2, note := "" }
        ⟨[]⟩ ⟨FSFile.absent, false⟩).2.1 = ⟨FSFile.absent, false⟩ := by
  refine ⟨?_, ?_, ?_⟩
  · have h := (C8_add_appends_then_saves "data/shifts.csv"
      { date := "d", hours := 1, hourlyRate := 2, note := "" } ⟨[]⟩ ⟨FSFile.absent, true⟩).1
    simpa using h
  · exact ((C8_add_appends_then_saves "data/shifts.csv"
      { date := "d", hours := 1, hourlyRate := 2, note := "" } ⟨[]⟩ ⟨FSFile.absent, false⟩).2.2 rfl).1
  · exact ((C8_add_appends_then_saves "data/shifts.csv"
      { date := "d", hours := 1, hourlyRate := 2, note := "" } ⟨[]⟩ ⟨FSFile.absent, false⟩).2.2 rfl).2

/-! ## C10: queries do not change the collection and touch no storage -/

/-- C10: every query operation leaves the Tracker state and the world
unchanged and performs no storage-port operation, and hence so does any
sequence of queries. -/
theorem C10_queries_pure (qs : List Query) (tr : Tracker) (w : World) :
    runQueries qs tr w = (tr, w) ∧
    ∀ q, (runQuery q tr w).2.1 = tr ∧ (runQuery q tr w).2.2.1 = w ∧
      (runQuery q tr w).2.2.2 = [] := by
  constructor
  · induction qs with
    | nil => rfl
    | cons q rest ih => cases q <;> simpa [runQueries, runQuery] using ih
  · intro q
    cases q <;> exact ⟨rfl, rfl, rfl⟩

/-! ## C5: decode error handling -/

/-- C5: `fromCSV` fails with the CSV `FormatError` when the line splits
into fewer than 3 fields, fails with the (distinct-message) number
`FormatError` when field 2 or field 3 has no parse as a real number, and
otherwise returns the fully populated Shift, the note defaulting to the
empty string when a fourth field is absent. -/
theorem C5_fromCSV_errors (line : String) (lineno : Nat) :
    ((splitComma line.data).length < 3 →
      Shift.fromCSV line lineno = Except.error ("Bad CSV at line " ++ toString lineno)) ∧
    (3 ≤ (splitComma line.data).length →
      (stod? (String.mk ((splitComma line.data).getD 1 [])) = none ∨
        stod? (String.mk ((splitComma line.data).getD 2 [])) = none) →
      Shift.fromCSV line lineno = Except.error ("Bad number at line " ++ toString lineno)) ∧
    (∀ h r, 3 ≤ (splitComma line.data).length →
      stod? (String.mk ((splitComma line.data).getD 1 [])) = some h →
      stod? (String.mk ((splitComma line.data).getD 2 [])) = some r →
      Shift.fromCSV line lineno = Except.ok
        { date := String.mk ((splitComma line.data).getD 0 []),
          hours := h, hourlyRate := r,
          note := if 4 ≤ (splitComma line.data).length
                  then String.mk ((splitComma line.data).getD 3 []) else "" }) ∧
    ("Bad CSV at line " ++ toString lineno) ≠ ("Bad number at line " ++ toString lineno) := by
  refine ⟨?_, ?_, ?_, ?_⟩
  · intro h
    simp [Shift.fromCSV, h]
  · intro h3 hor
    have hn : ¬ (splitComma line.data).length < 3 := not_lt.mpr h3
    simp only [List.getD_eq_getElem?_getD] at hor
    rcases hor with h1 | h2
    · simp [Shift.fromCSV, hn, h1]
    · cases e : stod? (String.mk ((splitComma line.data)[1]?.getD [])) <;>
        simp [Shift.fromCSV, hn, e, h2]
  · intro h r h3 e1 e2
    have hn : ¬ (splitComma line.data).length < 3 := not_lt.mpr h3
    simp only [List.getD_eq_getElem?_getD] at e1 e2
    simp [Shift.fromCSV, hn, e1, e2]
  · intro hEq
    have hlen := congrArg String.length hEq
    rw [String.length_append, String.length_append] at hlen
    have e1 : "Bad CSV at line ".length = 16 := by decide
    have e2 : "Bad number at line ".length = 19 := by decide
    rw [e1, e2] at hlen
    omega

/-- C5 witness: the three branches at concrete lines. -/
theorem C5_witness :
    Shift.fromCSV "a,b" 7 = Except.error ("Bad CSV at line " ++ toString 7) ∧
    Shift.fromCSV "d,xx,3" 8 = Except.error ("Bad number at line " ++ toString 8) ∧
    Shift.fromCSV "2025-01-01,2,3" 9 = Except.ok
      { date := "2025-01-01", hours := 2, hourlyRate := 3, note := "" } := by
  refine ⟨(C5_fromCSV_errors "a,b" 7).1 (by decide),
    (C5_fromCSV_errors "d,xx,3" 8).2.1 (by decide) (Or.inl (by decide)), ?_⟩
  have h := (C5_fromCSV_errors "2025-01-01,2,3" 9).2.2.1 2 3 (by decide)
    (by simp +decide [stod?, stodCore, stodMag, signSplit, parseDigits, isCppSpace,
      splitComma, splitCommaAux])
    (by simp +decide [stod?, stodCore, stodMag, signSplit, parseDigits, isCppSpace,
      splitComma, splitCommaAux])
  exact h

/-! ## C6: the date-parsing utility -/

/-- C6 counterexample: `parseISO` on a length-10 string whose year portion
is non-numeric FAILS (the `stoi` exception propagates) instead of
degrading silently; the claim's "never fails on any input string" is
false. -/
theorem C6_counterexample :
    10 ≤ "aaaa-bb-cc".length ∧
    parseISO "aaaa-bb-cc" = Except.error "stoi" ∧
    ∀ t, parseISO "aaaa-bb-cc" ≠ Except.ok t := by
  refine ⟨by decide, rfl, ?_⟩
  intro t h
  exact Except.noConfusion h

/-- C6 amended: `parseISO` validates nothing beyond the length check and
the `stoi` parses: a string shorter than 10 yields the zero-filled `tm`
without error; a string of length at least 10 yields the three `stoi`
values without any range validation when they all parse, but FAILS with
the `stoi` exception when the year, month or day portion has no leading
integer. -/
theorem C6_parseISO_cases (s : String) :
    (s.length < 10 → parseISO s = Except.ok ⟨0, 0, 0, 0, 0, 0⟩) ∧
    (10 ≤ s.length →
      ((stoi? (substrN s 0 4) = none ∨ stoi? (substrN s 5 2) = none ∨
          stoi? (substrN s 8 2) = none) →
        parseISO s = Except.error "stoi") ∧
      (∀ y mo d, stoi? (substrN s 0 4) = some y → stoi? (substrN s 5 2) = some mo →
        stoi? (substrN s 8 2) = some d →
        parseISO s = Except.ok ⟨y - 1900, mo - 1, d, 0, 0, 0⟩)) := by
  constructor
  · intro h
    have hn : ¬ 10 ≤ s.length := not_le.mpr h
    simp [parseISO, hn]
  · intro h10
    constructor
    · intro hor
      rcases hor with h1 | h2 | h3
      · simp [parseISO, h10, h1]
      · cases e1 : stoi? (substrN s 0 4) <;>
          simp [parseISO, h10, e1, h2]
      · cases e1 : stoi? (substrN s 0 4) <;>
          cases e2 : stoi? (substrN s 5 2) <;>
            simp [parseISO, h10, e1, e2, h3]
    · intro y mo d e1 e2 e3
      simp [parseISO, h10, e1, e2, e3]

/-- C6 witness: the silent zero-fill on a short string and the
unvalidated extraction on a parseable length-10 string. -/
theorem C6_witness :
    parseISO "x" = Except.ok ⟨0, 0, 0, 0, 0, 0⟩ ∧
    parseISO "2025-13-99" = Except.ok ⟨125, 12, 99, 0, 0, 0⟩ := by
  constructor
  · exact (C6_parseISO_cases "x").1 (by decide)
  · have h := ((C6_parseISO_cases "2025-13-99").2 (by decide)).2 2025 13 99
      (by decide) (by decide) (by decide)
    simpa using h

/-! ## C2: filterRecentDays(0) -/

/-- `parseISO` always produces a midnight `tm` (hour, minute, second 0). -/
theorem parseISO_time_fields (d : String) (t : Tm) (h : parseISO d = Except.ok t) :
    t.tm_hour = 0 ∧ t.tm_min = 0 ∧ t.tm_sec = 0 := by
  unfold parseISO at h
  split at h
  · split at h
    · cases h
      exact ⟨rfl, rfl, rfl⟩
    · cases h
  · cases h
    exact ⟨rfl, rfl, rfl⟩

/-- A successfully parsed date's timestamp is a whole number of days. -/
theorem parseISO_timegm_midnight (d : String) (t : Tm) (h : parseISO d = Except.ok t) :
    utc_timegm t = 86400 * daysFromCivil (t.tm_year + 1900) (t.tm_mon + 1) t.tm_mday := by
  obtain ⟨h1, h2, h3⟩ := parseISO_time_fields d t h
  simp [utc_timegm, h1, h2, h3]

/-- The filtering loop returns the `keepAt`-filter of its input when every
date parses. -/
theorem filterRecentAux_eq_filter (cutoff : Int) (l : List Shift)
    (hwf : ∀ s ∈ l, ∃ t, parseISO s.date = Except.ok t) :
    filterRecentAux cutoff l = Except.ok (l.filter (keepAt cutoff)) := by
  induction l with
  | nil => rfl
  | cons s rest ih =>
    obtain ⟨t, ht⟩ := hwf s (List.mem_cons_self s rest)
    have hrest := ih (fun x hx => hwf x (List.mem_cons_of_mem s hx))
    have hkeep : keepAt cutoff s = decide (cutoff ≤ utc_timegm t) := by
      simp [keepAt, dateEpoch?, Except.toOption, ht]
    have hF : List.filter (keepAt cutoff) (s :: rest) =
        if cutoff ≤ utc_timegm t then s :: List.filter (keepAt cutoff) rest
        else List.filter (keepAt cutoff) rest := by
      rw [List.filter_cons, hkeep]
      by_cases hc : cutoff ≤ utc_timegm t <;> simp [hc]
    simp only [filterRecentAux, ht, hrest, hF]
    rfl

/-- C2 counterexample: with the clock fixed at `now = 90000`
(1970-01-02 01:00:00 UTC, so the current UTC day is day 1, 1970-01-02),
`filterRecentDays(0)` EXCLUDES a shift dated exactly today, because the
kept predicate is `date-midnight ≥ now` and midnight (86400) is before
`now`.  This refutes "no shift dated today is excluded". -/
theorem C2_counterexample :
    Tracker.filterRecentDays ⟨[{ date := "1970-01-02", hours := 1, hourlyRate := 1, note := "" }]⟩
        0 90000 = Except.ok [] ∧
    parseISO "1970-01-02" = Except.ok ⟨70, 0, 2, 0, 0, 0⟩ ∧
    utc_timegm ⟨70, 0, 2, 0, 0, 0⟩ = 86400 ∧
    (86400 : Int) / 86400 = (90000 : Int) / 86400 :=
  ⟨rfl, rfl, rfl, rfl⟩

/-- C2 amended: with a fixed clock, `filterRecentDays(0)` returns exactly
the shifts whose date's UTC midnight is at or after `now` itself: a shift
dated the current UTC day is included only when `now` is exactly
midnight, and shifts dated on later days are always included. -/
theorem C2_filterRecentDays_zero (now : Int) (tr : Tracker)
    (hwf : ∀ s ∈ tr.shifts, ∃ t, parseISO s.date = Except.ok t) :
    tr.filterRecentDays 0 now = Except.ok (tr.shifts.filter (keepAt now)) ∧
    (∀ s ∈ tr.shifts, ∀ t, parseISO s.date = Except.ok t →
      (keepAt now s = true ↔
        (now / 86400 < utc_timegm t / 86400 ∨
          (utc_timegm t / 86400 = now / 86400 ∧ now % 86400 = 0)))) := by
  constructor
  · have h0 : now - 0 * 24 * 3600 = now := by ring
    unfold Tracker.filterRecentDays
    rw [h0]
    exact filterRecentAux_eq_filter now tr.shifts hwf
  · intro s _ t ht
    have hmid := parseISO_timegm_midnight s.date t ht
    have hkeep : keepAt now s = decide (now ≤ utc_timegm t) := by
      simp [keepAt, dateEpoch?, Except.toOption, ht]
    rw [hkeep, hmid]
    set k := daysFromCivil (t.tm_year + 1900) (t.tm_mon + 1) t.tm_mday with hk
    simp only [decide_eq_true_eq]
    omega

/-- C2 witness: at `now = 86400` (exactly midnight), the today-dated shift
is kept; at `now = 90000` it is not. -/
theorem C2_witness :
    Tracker.filterRecentDays ⟨[{ date := "1970-01-02", hours := 1, hourlyRate := 1, note := "" }]⟩
        0 86400 =
      Except.ok [{ date := "1970-01-02", hours := 1, hourlyRate := 1, note := "" }] ∧
    keepAt 86400 { date := "1970-01-02", hours := 1, hourlyRate := 1, note := "" } = true := by
  have h := C2_filterRecentDays_zero 86400
    ⟨[{ date := "1970-01-02", hours := 1, hourlyRate := 1, note := "" }]⟩
    (by
      intro s hs
      simp only [List.mem_singleton] at hs
      subst hs
      exact ⟨⟨70, 0, 2, 0, 0, 0⟩, rfl⟩)
  have hkeep : keepAt 86400 { date := "1970-01-02", hours := 1, hourlyRate := 1, note := "" } = true := by
    have h2 := h.2 { date := "1970-01-02", hours := 1, hourlyRate := 1, note := "" }
      (List.mem_singleton.mpr rfl) ⟨70, 0, 2, 0, 0, 0⟩ rfl
    rw [h2]
    right
    exact ⟨rfl, rfl⟩
  refine ⟨?_, hkeep⟩
  rw [h.1]
  simp [hkeep]

/-! ## C9: which lines does load skip? -/

/-- Decode success and value do not depend on the line number (only the
error message does). -/
theorem fromCSV_toOption (l : String) (ln : Nat) :
    (Shift.fromCSV l ln).toOption = decodeLine? l := by
  unfold decodeLine? Shift.fromCSV
  dsimp only
  split
  · rfl
  · split
    · rfl
    · rfl

/-- The loop of `load` decodes every line that is not the empty string (in
order) and skips exactly the empty ones. -/
theorem decodeLines_eq (ls : List String) :
    ∀ ln, (∀ l ∈ ls, l ≠ "" → (decodeLine? l).isSome) →
      decodeLines ls ln = Except.ok
        (ls.filterMap (fun l => if l = "" then none else decodeLine? l)) := by
  induction ls with
  | nil => intro ln _; rfl
  | cons l rest ih =>
    intro ln hwf
    have hrest := ih (ln + 1) (fun x hx hne => hwf x (List.mem_cons_of_mem l hx) hne)
    by_cases hl : l = ""
    · subst hl
      simp only [decodeLines, if_pos rfl, hrest, List.filterMap_cons]
      simp
    · obtain ⟨s, hs⟩ := Option.isSome_iff_exists.mp (hwf l (List.mem_cons_self l rest) hl)
      have hok : Shift.fromCSV l (ln + 1) = Except.ok s := by
        have h1 := fromCSV_toOption l (ln + 1)
        rw [hs] at h1
        cases e : Shift.fromCSV l (ln + 1) <;> rw [e] at h1
        · exact absurd h1 (by simp [Except.toOption])
        · simp only [Except.toOption, Option.some.injEq] at h1
          rw [h1]
      simp only [decodeLines, if_neg hl, hok, hrest, List.filterMap_cons, hs]
      rfl

/-- C9 counterexample: a line consisting only of whitespace is NOT skipped
by `load` — the source tests `line.empty()` without trimming, so the
whitespace-only line is decoded and the whole load fails with the CSV
`FormatError`.  This refutes "skips exactly those lines that are empty
after trimming". -/
theorem C9_counterexample :
    (" ").data.all isCppSpace = true ∧
    FileStorage.load (FSFile.readable " \n") = Except.error "Bad CSV at line 1" ∧
    ∀ v, FileStorage.load (FSFile.readable " \n") ≠ Except.ok v := by
  refine ⟨rfl, rfl, ?_⟩
  intro v h
  have h2 : (Except.error "Bad CSV at line 1" : Except String (List Shift)) = Except.ok v := h
  exact Except.noConfusion h2

/-- C9 amended: `load` skips exactly the lines that are the empty string
and decodes every other line in file order; a whitespace-only line is not
skipped but decoded (and, not splitting into 3 fields, makes the load
fail). -/
theorem C9_load_skips_empty (content : String)
    (hwf : ∀ l ∈ getLines content, l ≠ "" → (decodeLine? l).isSome) :
    FileStorage.load (FSFile.readable content) = Except.ok
      ((getLines content).filterMap (fun l => if l = "" then none else decodeLine? l)) := by
  show decodeLines (getLines content) 0 = _
  exact decodeLines_eq (getLines content) 0 hwf

/-- C9 witness: a store whose middle line is empty is loaded with the
empty line skipped and both other lines decoded in order. -/
theorem C9_witness :
    FileStorage.load (FSFile.readable "2025-01-01,1,2,x\n\nb,3,4\n") = Except.ok
      ((getLines "2025-01-01,1,2,x\n\nb,3,4\n").filterMap
        (fun l => if l = "" then none else decodeLine? l)) :=
  C9_load_skips_empty "2025-01-01,1,2,x\n\nb,3,4\n" (by decide)

/-! ## C4: listAllSorted and stability -/

/-- C4 counterexample: on the spec's own example (one 03-01 shift `sA`
followed by two distinct 01-10 shifts in insertion order `sB`, `sC`),
stability would force the unique output `[sB, sC, sA]`; but the
`std::sort` call only guarantees a date-sorted permutation, and the
conforming outcome `[sC, sB, sA]` swaps the tied pair.  The claimed
tie-preservation is therefore not a consequence of the code. -/
theorem C4_counterexample :
    ¬ ∀ out, stdSortPost [sA, sB, sC] out → out = [sB, sC, sA] := by
  intro h
  have h1 : ¬ ("2025-01-10" : String) < "2025-01-10" := by
    rw [String.lt_iff_toList_lt]; decide
  have h2 : ¬ ("2025-03-01" : String) < "2025-01-10" := by
    rw [String.lt_iff_toList_lt]; decide
  have hpost : stdSortPost [sA, sB, sC] [sC, sB, sA] := by
    constructor
    · decide
    · simp [sA, sB, sC, List.pairwise_cons, h1, h2]
      decide
  have := h [sC, sB, sA] hpost
  have hne : ([sC, sB, sA] : List Shift) ≠ [sB, sC, sA] := by decide
  exact hne this

/-- C4 amended: `listAllSorted` returns a permutation of the collection
in which consecutive dates never decrease (ascending lexicographic order
of the date string) — everything `std::sort` guarantees; the relative
order of shifts with equal dates is unspecified rather than
insertion-order stable. -/
theorem C4_listAllSorted_sorted (tr : Tracker) :
    stdSortPost tr.shifts tr.listAllSorted := by
  constructor
  · exact List.mergeSort_perm tr.shifts dateLe
  · have htrans : ∀ a b c : Shift, dateLe a b = true → dateLe b c = true →
        dateLe a c = true := by
      intro a b c hab hbc
      simp only [dateLe, decide_eq_true_eq] at *
      exact le_trans hab hbc
    have htotal : ∀ a b : Shift, (dateLe a b || dateLe b a) = true := by
      intro a b
      simp only [dateLe, Bool.or_eq_true, decide_eq_true_eq]
      exact le_total a.date b.date
    have h := List.sorted_mergeSort htrans htotal tr.shifts
    exact h.imp (fun hab => by
      simp only [dateLe, decide_eq_true_eq] at hab
      exact not_lt.mpr hab)

/-! ## C1: round-trip of the CSV encoding -/

/-- Facts about digit characters, by finite check. -/
theorem digitCh_facts : ∀ d, d < 10 →
    (digitCh d).isDigit = true ∧ (digitCh d).toNat - 48 = d ∧
    isCppSpace (digitCh d) = false ∧ digitCh d ≠ ',' ∧ digitCh d ≠ '-' ∧
    digitCh d ≠ '+' ∧ digitCh d ≠ '.' := by decide

/-- Every digit `natDigitsAux` produces is below 10. -/
theorem natDigitsAux_lt (fuel : Nat) : ∀ n, ∀ d ∈ natDigitsAux fuel n, d < 10 := by
  induction fuel with
  | zero => intro n d hd; cases hd
  | succ fuel ih =>
    intro n d hd
    unfold natDigitsAux at hd
    split at hd
    · cases hd
    · rcases List.mem_cons.mp hd with h | h
      · subst h
        omega
      · exact ih (n / 10) d h

/-- No comma among the digit characters of a digit list. -/
theorem comma_not_mem_digit_map (l : List Nat) (h : ∀ d ∈ l, d < 10) :
    ',' ∉ l.map digitCh := by
  intro hm
  obtain ⟨d, hd, he⟩ := List.mem_map.mp hm
  exact (digitCh_facts d (h d hd)).2.2.2.1 he

/-- No comma in a printed number. -/
theorem comma_not_mem_natChars (n : Nat) : ',' ∉ natChars n := by
  apply comma_not_mem_digit_map
  intro d hd
  rw [List.mem_reverse] at hd
  exact natDigitsAux_lt n n d hd

/-- No comma ever appears in the `%g` layout. -/
theorem comma_not_mem_fmtLayout (msig : Nat) (X : Int) :
    ',' ∉ (fmtLayout msig X).data := by
  simp only [fmtLayout]
  split
  · -- scientific form
    intro hm
    simp only [String.data_append, List.mem_append] at hm
    rcases hm with ((((hm | hm) | hm) | hm) | hm) | hm
    · exact comma_not_mem_natChars _ (List.take_subset 1 _ hm)
    · split at hm
      · simp only [String.data_append, List.mem_append] at hm
        rcases hm with hm | hm
        · exact absurd hm (by decide)
        · exact comma_not_mem_natChars _ (List.drop_subset 1 _ hm)
      · cases hm
    · exact absurd hm (by decide)
    · split at hm <;> exact absurd hm (by decide)
    · split at hm
      · exact absurd hm (by decide)
      · cases hm
    · exact comma_not_mem_natChars _ hm
  · split
    · -- fixed form, nonnegative exponent
      split
      · intro hm
        rcases List.mem_append.mp hm with hm | hm
        · exact comma_not_mem_natChars _ hm
        · exact absurd (List.eq_of_mem_replicate hm) (by decide)
      · intro hm
        simp only [String.data_append, List.mem_append] at hm
        rcases hm with (hm | hm) | hm
        · exact comma_not_mem_natChars _ (List.take_subset _ _ hm)
        · exact absurd hm (by decide)
        · exact comma_not_mem_natChars _ (List.drop_subset _ _ hm)
    · -- fixed form, negative exponent
      intro hm
      simp only [String.data_append, List.mem_append] at hm
      rcases hm with hm | hm | hm
      · exact absurd hm (by decide)
      · exact absurd (List.eq_of_mem_replicate hm) (by decide)
      · exact comma_not_mem_natChars _ hm

/-- No comma ever appears in `fmtG`'s output. -/
theorem comma_not_mem_fmtG (a b : Nat) : ',' ∉ (fmtG a b).data := by
  unfold fmtG
  split
  · decide
  · exact comma_not_mem_fmtLayout _ _

/-- No comma ever appears in `fmtQ`'s output. -/
theorem comma_not_mem_fmtQ (q : ℚ) : ',' ∉ (fmtQ q).data := by
  unfold fmtQ
  split
  · rw [String.data_append]
    intro hm
    rcases List.mem_append.mp hm with h | h
    · exact absurd h (by decide)
    · exact comma_not_mem_fmtG _ _ h
  · exact comma_not_mem_fmtG _ _

/-- Splitting a comma-free tail yields a single field. -/
theorem splitCommaAux_no_comma (xs : List Char) (h : ',' ∉ xs) :
    ∀ cur, splitCommaAux cur xs = [cur ++ xs] := by
  induction xs with
  | nil => intro cur; simp [splitCommaAux]
  | cons c cs ih =>
    intro cur
    have hc : c ≠ ',' := fun he => h (he ▸ List.mem_cons_self c cs)
    have hcs : ',' ∉ cs := fun hm => h (List.mem_cons_of_mem c hm)
    rw [splitCommaAux, if_neg hc, ih hcs]
    simp

/-- Splitting past the first comma after a comma-free prefix. -/
theorem splitCommaAux_split (xs rest : List Char) (h : ',' ∉ xs) :
    ∀ cur, splitCommaAux cur (xs ++ ',' :: rest) =
      (cur ++ xs) :: splitCommaAux [] rest := by
  induction xs with
  | nil =>
    intro cur
    rw [List.nil_append, splitCommaAux, if_pos rfl]
    simp
  | cons c cs ih =>
    intro cur
    have hc : c ≠ ',' := fun he => h (he ▸ List.mem_cons_self c cs)
    have hcs : ',' ∉ cs := fun hm => h (List.mem_cons_of_mem c hm)
    rw [List.cons_append, splitCommaAux, if_neg hc, ih hcs]
    simp

/-- Splitting four comma-free fields joined by commas. -/
theorem splitComma_four (a b c d : List Char) (ha : ',' ∉ a) (hb : ',' ∉ b)
    (hc : ',' ∉ c) (hd : ',' ∉ d) :
    splitComma (a ++ ',' :: (b ++ ',' :: (c ++ ',' :: d))) = [a, b, c, d] := by
  unfold splitComma
  rw [splitCommaAux_split a _ ha, splitCommaAux_split b _ hb,
    splitCommaAux_split c _ hc, splitCommaAux_no_comma d hd]
  simp

/-- The four fields of an encoded shift, when the free-text fields are
comma-free (the number printings never contain a comma). -/
theorem splitComma_toCSV (s : Shift) (hdate : ',' ∉ s.date.data)
    (hnote : ',' ∉ s.note.data) :
    splitComma (s.toCSV).data =
      [s.date.data, (fmtQ s.hours).data, (fmtQ s.hourlyRate).data, s.note.data] := by
  have hdata : (s.toCSV).data =
      s.date.data ++ ',' :: ((fmtQ s.hours).data ++ ',' ::
        ((fmtQ s.hourlyRate).data ++ ',' :: s.note.data)) := by
    unfold Shift.toCSV
    simp [String.data_append, show (",").data = [','] from rfl, List.append_assoc]
  rw [hdata]
  exact splitComma_four _ _ _ _ hdate (comma_not_mem_fmtQ s.hours)
    (comma_not_mem_fmtQ s.hourlyRate) hnote

/-- C1 counterexample: the default 6-significant-digit `ostream`
formatting loses digits, so `decode(encode(s)) == s` fails even with a
comma-free date and note: hours = 5.1234567 is encoded as "5.12346" and
decodes to 5.12346 ≠ 5.1234567.  (Likewise 1234567 would print as
"1.23457e+06".) -/
theorem C1_counterexample :
    Shift.toCSV { date := "d", hours := 5.1234567, hourlyRate := 1, note := "" } =
      "d,5.12346,1," ∧
    Shift.fromCSV "d,5.12346,1," 1 =
      Except.ok { date := "d", hours := 5.12346, hourlyRate := 1, note := "" } ∧
    (5.12346 : ℚ) ≠ 5.1234567 ∧
    Shift.fromCSV
        (Shift.toCSV { date := "d", hours := 5.1234567, hourlyRate := 1, note := "" }) 1 ≠
      Except.ok { date := "d", hours := 5.1234567, hourlyRate := 1, note := "" } := by
  have hfmtA : fmtQ (5.1234567 : ℚ) = "5.12346" := by
    unfold fmtQ
    rw [if_neg (by norm_num)]
    rw [show (5.1234567 : ℚ).num = 51234567 from by norm_num,
      show (5.1234567 : ℚ).den = 10000000 from by norm_num]
    decide
  have hfmt1 : fmtQ (1 : ℚ) = "1" := by
    unfold fmtQ
    rw [if_neg (by norm_num)]
    rw [show (1 : ℚ).num = 1 from rfl, show (1 : ℚ).den = 1 from rfl]
    decide
  have htoCSV : Shift.toCSV { date := "d", hours := 5.1234567, hourlyRate := 1, note := "" } =
      "d,5.12346,1," := by
    unfold Shift.toCSV
    rw [hfmtA, hfmt1]
    decide
  have hfromCSV : Shift.fromCSV "d,5.12346,1," 1 =
      Except.ok { date := "d", hours := 5.12346, hourlyRate := 1, note := "" } := by
    simp +decide [Shift.fromCSV, splitComma, splitCommaAux, stod?, stodCore, stodMag,
      signSplit, parseDigits, isCppSpace]
    norm_num
  refine ⟨htoCSV, hfromCSV, by norm_num, ?_⟩
  intro h
  rw [htoCSV, hfromCSV] at h
  injection h with h2
  have h3 : (5.12346 : ℚ) = 5.1234567 := congrArg Shift.hours h2
  norm_num at h3

/-- C1 amended: decoding the encoded line recovers the Shift
field-for-field for every Shift whose date and note contain no comma AND
whose hours and hourlyRate are re-parsed unchanged from their
6-significant-digit default printing (`stod? ∘ fmtQ` fixes them) — the
counterexample shows the second restriction is forced: a numeric value
needing more than 6 significant digits is altered by encode. -/
theorem C1_roundTrip (s : Shift) (lineno : Nat)
    (hdate : ',' ∉ s.date.data) (hnote : ',' ∉ s.note.data)
    (hhour : stod? (fmtQ s.hours) = some s.hours)
    (hrate : stod? (fmtQ s.hourlyRate) = some s.hourlyRate) :
    Shift.fromCSV (s.toCSV) lineno = Except.ok s := by
  have hsplit := splitComma_toCSV s hdate hnote
  unfold Shift.fromCSV
  rw [hsplit]
  have hlen : ¬ ([s.date.data, (fmtQ s.hours).data, (fmtQ s.hourlyRate).data,
      s.note.data].length < 3) := by simp
  rw [if_neg hlen]
  have h1 : String.mk ([s.date.data, (fmtQ s.hours).data, (fmtQ s.hourlyRate).data,
      s.note.data].getD 1 []) = fmtQ s.hours := rfl
  have h2 : String.mk ([s.date.data, (fmtQ s.hours).data, (fmtQ s.hourlyRate).data,
      s.note.data].getD 2 []) = fmtQ s.hourlyRate := rfl
  rw [h1, h2, hhour, hrate]
  rfl

/-- C1 witness: the round trip at a concrete shift with fractional hours
and rate, whose values (5.5 and 12.5) are unchanged by 6-significant-digit
printing. -/
theorem C1_witness :
    Shift.fromCSV (Shift.toCSV
      { date := "2025-10-01", hours := 5.5, hourlyRate := 12.5, note := "Lunch shift" }) 1 =
    Except.ok { date := "2025-10-01", hours := 5.5, hourlyRate := 12.5, note := "Lunch shift" } :=
  C1_roundTrip { date := "2025-10-01", hours := 5.5, hourlyRate := 12.5, note := "Lunch shift" } 1
    (by decide) (by decide)
    (by
      rw [show fmtQ (5.5 : ℚ) = "5.5" from by
        unfold fmtQ
        rw [if_neg (by norm_num)]
        rw [show (5.5 : ℚ).num = 11 from by norm_num,
          show (5.5 : ℚ).den = 2 from by norm_num]
        decide]
      simp +decide [stod?, stodCore, stodMag, signSplit, parseDigits, isCppSpace]
      norm_num)
    (by
      rw [show fmtQ (12.5 : ℚ) = "12.5" from by
        unfold fmtQ
        rw [if_neg (by norm_num)]
        rw [show (12.5 : ℚ).num = 25 from by norm_num,
          show (12.5 : ℚ).den = 2 from by norm_num]
        decide]
      simp +decide [stod?, stodCore, stodMag, signSplit, parseDigits, isCppSpace]
      norm_num)
